import Mathlib

/-!
Verification of `img2char.py`: a converter from a 5×8 monochrome image to an
8-byte LED-display character, packed MSB-first with inverted polarity
(Variant B of the specification).

The Python program is embedded shallowly:
* a decoded image (PIL's `Image` after `convert('1').getdata()`) is a
  `PILImage`: width, height and the binarized pixel sequence in row-major
  order, with PIL's guarantee that the sequence has `width * height` entries;
* exceptions become `Except String`;
* the `for` loops over `range` become monadic folds over `List.range`;
* `print` output is modelled as the list of printed lines.
-/

/-- A decoded, binarized image as handed over by the imaging library:
`width`, `height` (PIL's `img.size`), and the row-major sequence of
binarized pixels (`img.convert('1').getdata()`, each entry's Python
truthiness: `true` = white/on, `false` = black/off).  PIL guarantees the
pixel sequence has exactly `width * height` entries. -/
structure PILImage where
  width : Nat
  height : Nat
  pixels : List Bool
  hlen : pixels.length = width * height

/-- One iteration row of the packing loop (lines 16–19 of `img2char.py`):
`scratch = 0; for x in range(5): val = bmp[y*5+x]; scratch = (int(not bool(val)) << (7-x)) | scratch`.
An out-of-range index (Python `IndexError`) is `none`. -/
def packRow (bmp : List Bool) (y : Nat) : Option Nat :=
  (List.range 5).foldlM
    (fun scratch x =>
      (bmp[y * 5 + x]?).map (fun val => ((if val then 0 else 1) <<< (7 - x)) ||| scratch))
    0

/-- The outer packing loop (lines 14–20): `data = bytearray(); for y in range(8): ...; data.append(scratch)`. -/
def packRows (bmp : List Bool) : Option (List Nat) :=
  (List.range 8).foldlM
    (fun data y => (packRow bmp y).map (fun scratch => data ++ [scratch]))
    []

/-- The byte buffer computed by `img2char` (lines 9–23): size check, packing,
and the defensive zero-padding `data.extend([0] * (8 - size))`.  A raised
exception is an `Except.error` carrying the exception's message. -/
def img2charData (img : PILImage) : Except String (List Nat) :=
  if (img.width, img.height) ≠ (5, 8) then
    Except.error ("unsupported image size (" ++ toString img.width ++ ", " ++ toString img.height ++ ")")
  else
    match packRows img.pixels with
    | none => Except.error "bytearray index out of range"
    | some data => Except.ok (data ++ List.replicate (8 - data.length) 0)

/-- Python's `f'{b:08b}'` for a byte value: 8-character zero-padded binary,
most-significant bit first (faithful for `b < 256`, which every buffer
entry satisfies). -/
def bin8 (b : Nat) : String :=
  String.mk ((List.range 8).map (fun i => if b.testBit (7 - i) then '1' else '0'))

/-- Python's `hex(b)` for a natural number: `0x`-prefixed lowercase
hexadecimal digits. -/
def pyHex (b : Nat) : String :=
  "0x" ++ String.mk (Nat.toDigits 16 b)

/-- The lines printed by a successful run of `img2char` (lines 24–25):
first `print('\n'.join(f'{b:08b}' for b in data))` — one binary line per
byte — then `print(', '.join(hex(b) for b in data))`, the hex line. -/
def img2char (img : PILImage) : Except String (List String) :=
  (img2charData img).map
    (fun data => data.map bin8 ++ [String.intercalate ", " (data.map pyHex)])

/-- The `__main__` block (lines 28–32): run the converter on the outcome of
loading and decoding the image (`Except.error` when loading or decoding
raised), catch any exception and print `error: <description>`. -/
def mainOutput (outcome : Except String PILImage) : List String :=
  match outcome with
  | Except.error e => ["error: " ++ e]
  | Except.ok img =>
    match img2char img with
    | Except.error e => ["error: " ++ e]
    | Except.ok lines => lines

/-- Modelled from the spec: the command-line collaborator (click's
`Path(exists=True, dir_okay=False, readable=True)` on line 6, code outside
this repository) rejects a path that does not reference an existing file
with an error message mentioning the path, before the converter runs; the
program surfaces it as a single `error: ...` line (§4.1 step 1, §8 of the
spec).  `pathOk` is whether the path references an existing readable file. -/
def runProgram (pathOk : Bool) (path : String) (outcome : Except String PILImage) : List String :=
  if pathOk then mainOutput outcome
  else ["error: " ++ ("path " ++ (path ++ " does not exist"))]

/-- The claim C6 compares the program against the same program with the
defensive padding step (lines 22–23) removed. -/
def img2charDataNoPad (img : PILImage) : Except String (List Nat) :=
  if (img.width, img.height) ≠ (5, 8) then
    Except.error ("unsupported image size (" ++ toString img.width ++ ", " ++ toString img.height ++ ")")
  else
    match packRows img.pixels with
    | none => Except.error "bytearray index out of range"
    | some data => Except.ok data

/-- Replacing the pixel at index `i` by its toggled value: the
image-modification used by the per-pixel independence law (C2). -/
def togglePixel (img : PILImage) (i : Nat) : PILImage :=
  ⟨img.width, img.height, img.pixels.set i (!img.pixels[i]!),
    by rw [List.length_set]; exact img.hlen⟩

/-- An all-white (every pixel on) 5×8 image. -/
def allWhite : PILImage :=
  ⟨5, 8, List.replicate 40 true, by rfl⟩

/-- An all-black (every pixel off) 5×8 image, used as a concrete witness. -/
def allBlack : PILImage :=
  ⟨5, 8, List.replicate 40 false, by rfl⟩

/-- A 4×8 image, used as a concrete wrong-size witness. -/
def wrongSize : PILImage :=
  ⟨4, 8, List.replicate 32 false, by rfl⟩

/-- Closed form of one packed row byte, given the five binarized column
values of the row: the value `packRow` accumulates after its five
iterations. -/
def rowVal (v0 v1 v2 v3 v4 : Bool) : Nat :=
  ((if v4 then 0 else 1) <<< 3) |||
    (((if v3 then 0 else 1) <<< 4) |||
      (((if v2 then 0 else 1) <<< 5) |||
        (((if v1 then 0 else 1) <<< 6) |||
          (((if v0 then 0 else 1) <<< 7) ||| 0))))

/-- The 8-byte buffer produced by the packing loops on a 40-pixel sequence,
row `y` built from pixels `5*y .. 5*y+4`. -/
def rowBytes (bmp : List Bool) : List Nat :=
  [rowVal bmp[0]! bmp[1]! bmp[2]! bmp[3]! bmp[4]!,
   rowVal bmp[5]! bmp[6]! bmp[7]! bmp[8]! bmp[9]!,
   rowVal bmp[10]! bmp[11]! bmp[12]! bmp[13]! bmp[14]!,
   rowVal bmp[15]! bmp[16]! bmp[17]! bmp[18]! bmp[19]!,
   rowVal bmp[20]! bmp[21]! bmp[22]! bmp[23]! bmp[24]!,
   rowVal bmp[25]! bmp[26]! bmp[27]! bmp[28]! bmp[29]!,
   rowVal bmp[30]! bmp[31]! bmp[32]! bmp[33]! bmp[34]!,
   rowVal bmp[35]! bmp[36]! bmp[37]! bmp[38]! bmp[39]!]

lemma getElem?_bang (l : List Bool) (i : Nat) (h : i < l.length) :
    l[i]? = some (l[i]!) := by
  rw [List.getElem?_eq_getElem h, getElem!_pos l i h]

lemma packRow_eq (bmp : List Bool) (y : Nat) (h : y * 5 + 4 < bmp.length) :
    packRow bmp y =
      some (rowVal bmp[y * 5]! bmp[y * 5 + 1]! bmp[y * 5 + 2]! bmp[y * 5 + 3]! bmp[y * 5 + 4]!) := by
  have e0 := getElem?_bang bmp (y * 5) (by omega)
  have e1 := getElem?_bang bmp (y * 5 + 1) (by omega)
  have e2 := getElem?_bang bmp (y * 5 + 2) (by omega)
  have e3 := getElem?_bang bmp (y * 5 + 3) (by omega)
  have e4 := getElem?_bang bmp (y * 5 + 4) (by omega)
  have hr : List.range 5 = [0, 1, 2, 3, 4] := by rfl
  simp [packRow, hr, List.foldlM, e0, e1, e2, e3, e4, rowVal]

lemma packRows_eq (bmp : List Bool) (h : bmp.length = 40) :
    packRows bmp = some (rowBytes bmp) := by
  have p0 := packRow_eq bmp 0 (by omega)
  have p1 := packRow_eq bmp 1 (by omega)
  have p2 := packRow_eq bmp 2 (by omega)
  have p3 := packRow_eq bmp 3 (by omega)
  have p4 := packRow_eq bmp 4 (by omega)
  have p5 := packRow_eq bmp 5 (by omega)
  have p6 := packRow_eq bmp 6 (by omega)
  have p7 := packRow_eq bmp 7 (by omega)
  norm_num at p0 p1 p2 p3 p4 p5 p6 p7
  have hr : List.range 8 = [0, 1, 2, 3, 4, 5, 6, 7] := by rfl
  simp [packRows, hr, List.foldlM, p0, p1, p2, p3, p4, p5, p6, p7, rowBytes]

lemma rowBytes_length (bmp : List Bool) : (rowBytes bmp).length = 8 := by rfl

lemma img2charData_eq (img : PILImage) (h5 : img.width = 5) (h8 : img.height = 8) :
    img2charData img = Except.ok (rowBytes img.pixels) := by
  have hl : img.pixels.length = 40 := by rw [img.hlen, h5, h8]
  rw [img2charData, if_neg (by simp [h5, h8]), packRows_eq img.pixels hl]
  simp [rowBytes_length]

lemma rowVal_testBit (v0 v1 v2 v3 v4 : Bool) (k : Nat) (hk : k < 8) :
    (rowVal v0 v1 v2 v3 v4).testBit k =
      (if k = 7 then !v0 else if k = 6 then !v1 else if k = 5 then !v2
       else if k = 4 then !v3 else if k = 3 then !v4 else false) := by
  interval_cases k <;> revert v0 v1 v2 v3 v4 <;> decide

lemma rowVal_lt (v0 v1 v2 v3 v4 : Bool) : rowVal v0 v1 v2 v3 v4 < 256 := by
  revert v0 v1 v2 v3 v4; decide

lemma rowBytes_testBit (bmp : List Bool) (y k : Nat) (hy : y < 8) (hk : k < 8) :
    (rowBytes bmp)[y]!.testBit k = (decide (3 ≤ k) && !bmp[y * 5 + (7 - k)]!) := by
  have e0 : (rowBytes bmp)[0]! = rowVal bmp[0]! bmp[1]! bmp[2]! bmp[3]! bmp[4]! := by
    simp [rowBytes]
  have e1 : (rowBytes bmp)[1]! = rowVal bmp[5]! bmp[6]! bmp[7]! bmp[8]! bmp[9]! := by
    simp [rowBytes]
  have e2 : (rowBytes bmp)[2]! = rowVal bmp[10]! bmp[11]! bmp[12]! bmp[13]! bmp[14]! := by
    simp [rowBytes]
  have e3 : (rowBytes bmp)[3]! = rowVal bmp[15]! bmp[16]! bmp[17]! bmp[18]! bmp[19]! := by
    simp [rowBytes]
  have e4 : (rowBytes bmp)[4]! = rowVal bmp[20]! bmp[21]! bmp[22]! bmp[23]! bmp[24]! := by
    simp [rowBytes]
  have e5 : (rowBytes bmp)[5]! = rowVal bmp[25]! bmp[26]! bmp[27]! bmp[28]! bmp[29]! := by
    simp [rowBytes]
  have e6 : (rowBytes bmp)[6]! = rowVal bmp[30]! bmp[31]! bmp[32]! bmp[33]! bmp[34]! := by
    simp [rowBytes]
  have e7 : (rowBytes bmp)[7]! = rowVal bmp[35]! bmp[36]! bmp[37]! bmp[38]! bmp[39]! := by
    simp [rowBytes]
  interval_cases y <;> interval_cases k <;>
      simp only [e0, e1, e2, e3, e4, e5, e6, e7] <;>
      rw [rowVal_testBit _ _ _ _ _ _ (by omega)] <;>
    simp

lemma togglePixel_pixels (img : PILImage) (i : Nat) :
    (togglePixel img i).pixels = img.pixels.set i (!img.pixels[i]!) := rfl

lemma getElem!_set_self (l : List Bool) (i : Nat) (v : Bool) (h : i < l.length) :
    (l.set i v)[i]! = v := by
  rw [getElem!_pos (l.set i v) i (by simpa using h)]
  exact List.getElem_set_self _

lemma getElem!_set_ne (l : List Bool) (i j : Nat) (v : Bool) (hij : i ≠ j) (h : j < l.length) :
    (l.set i v)[j]! = l[j]! := by
  rw [getElem!_pos (l.set i v) j (by simpa using h), getElem!_pos l j h]
  exact List.getElem_set_ne hij _

lemma foldlM_append_length (f : Nat → Option Nat) :
    ∀ (ys : List Nat) (acc l : List Nat),
      List.foldlM (fun data y => (f y).map (fun s => data ++ [s])) acc ys = some l →
      l.length = acc.length + ys.length := by
  intro ys
  induction ys with
  | nil =>
    intro acc l h
    simp [List.foldlM] at h
    simp [← h]
  | cons y ys ih =>
    intro acc l h
    rw [List.foldlM_cons] at h
    cases hf : f y with
    | none => rw [hf] at h; simp at h
    | some s =>
      rw [hf] at h
      simp only [Option.map_some', Option.some_bind] at h
      have h2 := ih (acc ++ [s]) l h
      simp at h2
      simp
      omega

lemma packRows_length (bmp : List Bool) (l : List Nat) (h : packRows bmp = some l) :
    l.length = 8 := by
  rw [packRows] at h
  simpa using foldlM_append_length (packRow bmp) (List.range 8) [] l h

lemma img2charData_length (img : PILImage) (data : List Nat)
    (h : img2charData img = Except.ok data) : data.length = 8 := by
  rw [img2charData] at h
  by_cases hc : (img.width, img.height) ≠ (5, 8)
  · rw [if_pos hc] at h
    exact absurd h (by simp)
  · rw [if_neg hc] at h
    cases hp : packRows img.pixels with
    | none =>
      rw [hp] at h
      exact absurd h (by simp)
    | some d =>
      rw [hp] at h
      simp only [Except.ok.injEq] at h
      have h8 : d.length = 8 := packRows_length img.pixels d hp
      rw [← h]
      simp [h8]

lemma bin8_length (b : Nat) : (bin8 b).length = 8 := rfl

lemma bin8_get (b : Nat) (i : Nat) (hi : i < 8) :
    (bin8 b).data[i]! = (if b.testBit (7 - i) then '1' else '0') := by
  show ((List.range 8).map (fun j => if b.testBit (7 - j) then '1' else '0'))[i]! = _
  rw [getElem!_pos _ i (by simpa using hi)]
  simp

/-- Claim C1: every image that passes the 5×8 size check yields exactly 8
output bytes, one per row top-to-bottom; for row `y` the byte's bit `7 − x`
is the inverted on/off state of the binarized pixel at column `x`
(for x in 0..4), and bits 0–2 are 0 (Variant B packing). -/
theorem spec_C1 (img : PILImage) (h5 : img.width = 5) (h8 : img.height = 8) :
    ∃ data, img2charData img = Except.ok data ∧ data.length = 8 ∧
      (∀ y x, y < 8 → x < 5 →
        data[y]!.testBit (7 - x) = !img.pixels[y * 5 + x]!) ∧
      (∀ y k, y < 8 → k < 3 → data[y]!.testBit k = false) := by
  refine ⟨rowBytes img.pixels, img2charData_eq img h5 h8, rowBytes_length _, ?_, ?_⟩
  · intro y x hy hx
    rw [rowBytes_testBit img.pixels y (7 - x) hy (by omega)]
    have h1 : 3 ≤ 7 - x := by omega
    have h2 : 7 - (7 - x) = x := by omega
    simp [h1, h2]
  · intro y k hy hk
    rw [rowBytes_testBit img.pixels y k hy (by omega)]
    have h1 : ¬3 ≤ k := by omega
    simp [h1]

/-- Witness for C1: the claim instantiated at the all-black 5×8 image. -/
theorem spec_C1_witness :
    ∃ data, img2charData allBlack = Except.ok data ∧ data.length = 8 ∧
      (∀ y x, y < 8 → x < 5 →
        data[y]!.testBit (7 - x) = !allBlack.pixels[y * 5 + x]!) ∧
      (∀ y k, y < 8 → k < 3 → data[y]!.testBit k = false) :=
  spec_C1 allBlack rfl rfl

/-- Claim C2: a white (on) pixel at `(x, y)` gives packed-bit value 0 and a
black (off) pixel gives value 1 at bit `7 − x` of row byte `y`, independently
of all other pixels: toggling only that pixel toggles only that bit. -/
theorem spec_C2 (img : PILImage) (x y : Nat) (h5 : img.width = 5)
    (h8 : img.height = 8) (hx : x < 5) (hy : y < 8) :
    ∃ data tdata,
      img2charData img = Except.ok data ∧
      img2charData (togglePixel img (y * 5 + x)) = Except.ok tdata ∧
      data[y]!.testBit (7 - x) = !img.pixels[y * 5 + x]! ∧
      tdata[y]!.testBit (7 - x) = !(data[y]!.testBit (7 - x)) ∧
      (∀ r k, r < 8 → k < 8 → ¬(r = y ∧ k = 7 - x) →
        tdata[r]!.testBit k = data[r]!.testBit k) := by
  have hl : img.pixels.length = 40 := by rw [img.hlen, h5, h8]
  have hi : y * 5 + x < img.pixels.length := by omega
  have h1 : 3 ≤ 7 - x := by omega
  have h2 : 7 - (7 - x) = x := by omega
  refine ⟨rowBytes img.pixels, rowBytes (togglePixel img (y * 5 + x)).pixels,
    img2charData_eq img h5 h8, img2charData_eq _ h5 h8, ?_, ?_, ?_⟩
  · rw [rowBytes_testBit img.pixels y (7 - x) hy (by omega)]
    simp [h1, h2]
  · rw [rowBytes_testBit _ y (7 - x) hy (by omega),
      rowBytes_testBit _ y (7 - x) hy (by omega)]
    rw [togglePixel_pixels]
    rw [h2, getElem!_set_self _ _ _ hi]
    simp [h1]
  · intro r k hr hk hne
    rw [rowBytes_testBit _ r k hr hk, rowBytes_testBit _ r k hr hk]
    by_cases h3 : 3 ≤ k
    · have hne2 : y * 5 + x ≠ r * 5 + (7 - k) := by omega
      rw [togglePixel_pixels, getElem!_set_ne _ _ _ _ hne2 (by omega)]
    · simp [h3]

/-- Witness for C2: the claim instantiated at the all-black image, pixel
(x, y) = (2, 3). -/
theorem spec_C2_witness :
    ∃ data tdata,
      img2charData allBlack = Except.ok data ∧
      img2charData (togglePixel allBlack (3 * 5 + 2)) = Except.ok tdata ∧
      data[3]!.testBit (7 - 2) = !allBlack.pixels[3 * 5 + 2]! ∧
      tdata[3]!.testBit (7 - 2) = !(data[3]!.testBit (7 - 2)) ∧
      (∀ r k, r < 8 → k < 8 → ¬(r = 3 ∧ k = 7 - 2) →
        tdata[r]!.testBit k = data[r]!.testBit k) :=
  spec_C2 allBlack 2 3 rfl rfl (by decide) (by decide)

/-- Claim C3: any decoded image whose size is not exactly 5×8 makes the
converter fail with a validation error whose message carries the observed
size, and the program prints only the single error line — no byte output. -/
theorem spec_C3 (img : PILImage) (h : ¬(img.width = 5 ∧ img.height = 8)) :
    ∃ e, img2char img = Except.error e ∧
      e = "unsupported image size (" ++ toString img.width ++ ", " ++ toString img.height ++ ")" ∧
      mainOutput (Except.ok img) = ["error: " ++ e] := by
  have hc : (img.width, img.height) ≠ ((5 : Nat), (8 : Nat)) := by
    intro he
    exact h ⟨congrArg Prod.fst he, congrArg Prod.snd he⟩
  have hd : img2charData img =
      Except.error ("unsupported image size (" ++ toString img.width ++ ", " ++
        toString img.height ++ ")") := by
    rw [img2charData, if_pos hc]
  have hch : img2char img =
      Except.error ("unsupported image size (" ++ toString img.width ++ ", " ++
        toString img.height ++ ")") := by
    rw [img2char, hd]
    rfl
  exact ⟨_, hch, rfl, by simp [mainOutput, hch]⟩

/-- Witness for C3: the claim instantiated at a 4×8 image. -/
theorem spec_C3_witness :
    ∃ e, img2char wrongSize = Except.error e ∧
      e = "unsupported image size (" ++ toString wrongSize.width ++ ", " ++
        toString wrongSize.height ++ ")" ∧
      mainOutput (Except.ok wrongSize) = ["error: " ++ e] :=
  spec_C3 wrongSize (by decide)

/-- Claim C4: every failure — an exception while loading or decoding, or one
raised inside the converter — is caught by the single top-level handler and
printed as the one line `error: <description>`; since printing of bytes
happens only on the success path, a failing run prints no partial byte
output. -/
theorem spec_C4 (outcome : Except String PILImage) (e : String)
    (h : outcome = Except.error e ∨
      ∃ img, outcome = Except.ok img ∧ img2char img = Except.error e) :
    mainOutput outcome = ["error: " ++ e] := by
  rcases h with h | ⟨img, rfl, hi⟩
  · rw [h]; rfl
  · simp [mainOutput, hi]

/-- Witness for C4: a decode failure is printed as a single error line. -/
theorem spec_C4_witness :
    mainOutput (Except.error "cannot identify image file") =
      ["error: " ++ "cannot identify image file"] :=
  spec_C4 (Except.error "cannot identify image file") "cannot identify image file"
    (Or.inl rfl)

/-- Claim C5: on success the converter prints first 8 lines, one per byte in
row order, each byte rendered as an 8-character zero-padded binary string
with the most-significant bit first, then one line with the 8 bytes as
comma-separated 0x-prefixed hexadecimal literals. -/
theorem spec_C5 (img : PILImage) (data : List Nat)
    (h : img2charData img = Except.ok data) :
    img2char img =
      Except.ok (data.map bin8 ++ [String.intercalate ", " (data.map pyHex)]) ∧
    (data.map bin8).length = 8 ∧
    (∀ b ∈ data, (bin8 b).length = 8 ∧
      ∀ i, i < 8 → (bin8 b).data[i]! = (if b.testBit (7 - i) then '1' else '0')) ∧
    (∀ b ∈ data, ∃ ds, pyHex b = "0x" ++ ds) := by
  refine ⟨by rw [img2char, h]; rfl, ?_, ?_, ?_⟩
  · simp [img2charData_length img data h]
  · intro b _
    exact ⟨bin8_length b, fun i hi => bin8_get b i hi⟩
  · intro b _
    exact ⟨String.mk (Nat.toDigits 16 b), rfl⟩

/-- Witness for C5: the claim instantiated at the all-black image, whose
buffer is eight `0xF8` bytes. -/
theorem spec_C5_witness :
    img2char allBlack =
      Except.ok ((List.replicate 8 0xF8).map bin8 ++
        [String.intercalate ", " ((List.replicate 8 0xF8).map pyHex)]) ∧
    ((List.replicate 8 0xF8).map bin8).length = 8 ∧
    (∀ b ∈ List.replicate 8 0xF8, (bin8 b).length = 8 ∧
      ∀ i, i < 8 → (bin8 b).data[i]! = (if b.testBit (7 - i) then '1' else '0')) ∧
    (∀ b ∈ List.replicate 8 0xF8, ∃ ds, pyHex b = "0x" ++ ds) :=
  spec_C5 allBlack (List.replicate 8 0xF8) rfl

/-- Claim C6: the defensive zero-padding after packing never appends a byte:
the converter with the padding step removed computes exactly the same
buffer as the converter with it, on every image. -/
theorem spec_C6 (img : PILImage) : img2charDataNoPad img = img2charData img := by
  rw [img2charDataNoPad, img2charData]
  by_cases hc : (img.width, img.height) ≠ ((5 : Nat), (8 : Nat))
  · rw [if_pos hc, if_pos hc]
  · rw [if_neg hc, if_neg hc]
    cases hp : packRows img.pixels with
    | none => rfl
    | some d =>
      have h8 := packRows_length img.pixels d hp
      simp [h8]

/-- Claim C7: a run whose path does not reference an existing file prints
exactly one line of the form `error: ...` mentioning the path, and no byte
output. -/
theorem spec_C7 (path : String) (outcome : Except String PILImage) :
    ∃ pre post,
      runProgram false path outcome = ["error: " ++ (pre ++ (path ++ post))] :=
  ⟨"path ", " does not exist", rfl⟩

/-- Claim C8: the all-white 5×8 image yields eight zero bytes; its binary
lines are all `00000000` and its hex line is exactly
`0x0, 0x0, 0x0, 0x0, 0x0, 0x0, 0x0, 0x0`. -/
theorem spec_C8 :
    img2charData allWhite = Except.ok (List.replicate 8 0) ∧
    img2char allWhite = Except.ok
      (List.replicate 8 "00000000" ++ ["0x0, 0x0, 0x0, 0x0, 0x0, 0x0, 0x0, 0x0"]) :=
  ⟨rfl, rfl⟩

/-- Claim C9: determinism — the printed output is a function of the decoded
file content alone (size and binarized pixel sequence), so two runs of the
converter on the same unmodified input produce byte-for-byte identical
output. -/
theorem spec_C9 (a b : PILImage) (hw : a.width = b.width)
    (hh : a.height = b.height) (hp : a.pixels = b.pixels) :
    img2char a = img2char b ∧
    mainOutput (Except.ok a) = mainOutput (Except.ok b) := by
  obtain ⟨aw, ah, ap, hla⟩ := a
  obtain ⟨bw, bh, bp, hlb⟩ := b
  simp only at hw hh hp
  subst hw
  subst hh
  subst hp
  exact ⟨rfl, rfl⟩

/-- Witness for C9: two identical all-white inputs give identical output. -/
theorem spec_C9_witness :
    img2char allWhite = img2char allWhite ∧
    mainOutput (Except.ok allWhite) = mainOutput (Except.ok allWhite) :=
  spec_C9 allWhite allWhite rfl rfl rfl

/-- Claim C10: once the size check has passed the pixel sequence has 40
entries, every index `y*5 + x` used by the packing loops (y < 8, x < 5) is
in bounds, every lookup succeeds, and the packing loop completes without an
out-of-range fault. -/
theorem spec_C10 (img : PILImage) (h5 : img.width = 5) (h8 : img.height = 8) :
    img.pixels.length = 40 ∧
    (∀ y x, y < 8 → x < 5 → y * 5 + x < img.pixels.length) ∧
    (∀ y x, y < 8 → x < 5 →
      img.pixels[y * 5 + x]? = some (img.pixels[y * 5 + x]!)) ∧
    ∃ l, packRows img.pixels = some l := by
  have hl : img.pixels.length = 40 := by rw [img.hlen, h5, h8]
  exact ⟨hl, fun y x hy hx => by omega,
    fun y x hy hx => getElem?_bang _ _ (by omega),
    ⟨rowBytes img.pixels, packRows_eq _ hl⟩⟩

/-- Witness for C10: the claim instantiated at the all-white image. -/
theorem spec_C10_witness :
    allWhite.pixels.length = 40 ∧
    (∀ y x, y < 8 → x < 5 → y * 5 + x < allWhite.pixels.length) ∧
    (∀ y x, y < 8 → x < 5 →
      allWhite.pixels[y * 5 + x]? = some (allWhite.pixels[y * 5 + x]!)) ∧
    ∃ l, packRows allWhite.pixels = some l :=
  spec_C10 allWhite rfl rfl
